import Mathlib

/-!
Verification of the benchmark-charting utility `scripts/plot-results.py`.

The script reads a CSV table of benchmark observations and renders
comparison charts (throughput, latency, speedup) to image files,
dispatching on a benchmark-kind selector (`sysbench`, `tpcc`,
`sysbench-tpcc`).  We embed the data-level content of each produced
chart (file name, per-axes panels, series with legend labels and
(threads, value) points, horizontal reference line) and the process
behaviour of `main` (exit code, stderr, output-directory creation),
and prove the specified properties about them.

Rendering internals of matplotlib (colors, marker shapes, pixel
dimensions, PNG encoding) are treated as an opaque backend; a chart is
identified with the data handed to the backend.
-/

namespace PlotResults

/-- One observation row of the CSV table.  Columns: `workload`
(categorical, used by the sysbench kind), `engine` (categorical),
`threads` (positive integer concurrency level), metrics `tps`,
`latency_avg`, `tpmC` (reals, embedded as rationals). -/
structure Row where
  workload : String
  engine : String
  threads : Nat
  tps : Rat
  latency_avg : Rat
  tpmC : Rat
deriving Repr, DecidableEq

/-- A plotted line: legend label plus the sequence of
(threads, value) points; `none` stands for a NaN value arising from
pandas index alignment of a missing key. -/
structure Series where
  label : String
  points : List (Nat × Option Rat)
deriving Repr, DecidableEq

/-- One axes of a figure: its title and the series drawn on it. -/
structure Panel where
  title : String
  series : List Series
deriving Repr, DecidableEq

/-- One output chart (image file): file name, the panels of the
figure, and the horizontal reference line if one is drawn. -/
structure Chart where
  name : String
  panels : List Panel
  hline : Option Rat
deriving Repr, DecidableEq

/-- `leadMatch pat s`: `pat` is a prefix of `s` (character lists). -/
def leadMatch : List Char → List Char → Bool
  | [], _ => true
  | _ :: _, [] => false
  | p :: ps, c :: cs => p == c && leadMatch ps cs

/-- `charsHasSub pat s`: `pat` occurs as a contiguous substring of
`s` (character lists).  Embeds Python's `pat in s`. -/
def charsHasSub (pat : List Char) : List Char → Bool
  | [] => pat.isEmpty
  | c :: cs => leadMatch pat (c :: cs) || charsHasSub pat cs

/-- Python's substring test `pat in s` on strings. -/
def strContains (s pat : String) : Bool :=
  charsHasSub pat.toList s.toList

/-- One step of first-appearance deduplication: keep the
accumulator if the value was already seen, else append it. -/
def dedupStep {α : Type} [DecidableEq α] (acc : List α) (x : α) : List α :=
  if x ∈ acc then acc else acc ++ [x]

/-- `pandas.unique`: the distinct values of a column in order of
first appearance. -/
def uniquesFirst {α : Type} [DecidableEq α] (l : List α) : List α :=
  l.foldl dedupStep []

/-- `df[df['engine'] == e]`: the rows of the table whose engine
equals `e`, in table order. -/
def engineRows (df : List Row) (e : String) : List Row :=
  df.filter (fun r => r.engine == e)

/-- `df[df['workload'] == w]`: the rows whose workload equals `w`. -/
def workloadRows (df : List Row) (w : String) : List Row :=
  df.filter (fun r => r.workload == w)

/-- `ax.plot(rows['threads'], rows[metric])`: the plotted points of a
metric column against threads, in row order (every value present). -/
def colPoints (rows : List Row) (metric : Row → Rat) : List (Nat × Option Rat) :=
  rows.map (fun r => (r.threads, some (metric r)))

/-- Insert into a sorted list of naturals (helper for the sorted
union index produced by pandas alignment). -/
def insSorted (x : Nat) : List Nat → List Nat
  | [] => [x]
  | y :: ys => if x ≤ y then x :: y :: ys else y :: insSorted x ys

/-- Insertion sort on naturals. -/
def sortNat (l : List Nat) : List Nat :=
  l.foldr insSorted []

/-- Index of the result of dividing two pandas Series: if the two
indexes are identical the common order is kept, otherwise the result
is indexed by the sorted union of the two indexes. -/
def unionIdx (a b : List Nat) : List Nat :=
  if a = b then a else sortNat (uniquesFirst (a ++ b))

/-- `num / den` on two pandas Series indexed by threads (the
`set_index('threads')` frames): values are aligned by index; a key
present on only one side yields NaN (`none`).  Models the
unique-index case, per the table invariant that rows of one engine
carry distinct `threads` values. -/
def seriesDiv (num den : List (Nat × Option Rat)) : List (Nat × Option Rat) :=
  (unionIdx (num.map (·.1)) (den.map (·.1))).map (fun t =>
    match num.find? (fun p => p.1 == t), den.find? (fun p => p.1 == t) with
    | some (_, some x), some (_, some y) => (t, some (x / y))
    | _, _ => (t, none))

/-! ### plot_sysbench -/

/-- The two per-engine TPS-or-latency series of a sysbench chart:
the code iterates over the fixed list `['innodb', 'myrocks']`,
labelling each line with `engine.upper()`. -/
def sysbenchSeries (rows : List Row) (metric : Row → Rat) : List Series :=
  ["innodb", "myrocks"].map (fun e =>
    { label := e.toUpper, points := colPoints (engineRows rows e) metric })

/-- The two charts produced for one sysbench workload:
`{workload}_tps.png` and `{workload}_latency.png`. -/
def sysbenchWorkloadCharts (df : List Row) (w : String) : List Chart :=
  [ { name := w ++ "_tps.png",
      panels := [⟨"Sysbench " ++ w ++ " - Throughput Comparison",
                  sysbenchSeries (workloadRows df w) (·.tps)⟩],
      hline := none },
    { name := w ++ "_latency.png",
      panels := [⟨"Sysbench " ++ w ++ " - Latency Comparison",
                  sysbenchSeries (workloadRows df w) (·.latency_avg)⟩],
      hline := none } ]

/-- The combined summary figure: one TPS panel per workload for the
first three distinct workloads (`workloads[:3]`). -/
def sysbenchSummaryChart (df : List Row) (workloads : List String) : Chart :=
  { name := "summary_comparison.png",
    panels := (workloads.take 3).map (fun w =>
      ⟨w, sysbenchSeries (workloadRows df w) (·.tps)⟩),
    hline := none }

/-- `plot_sysbench`: per-workload TPS and latency charts for every
distinct workload in first-appearance order, then the summary
figure. -/
def plot_sysbench (df : List Row) : List Chart :=
  let workloads := uniquesFirst (df.map (·.workload))
  (workloads.flatMap (sysbenchWorkloadCharts df)) ++
    [sysbenchSummaryChart df workloads]

/-! ### plot_tpcc -/

/-- The TPC-C speedup series: `myrocks.tpmC / innodb.tpmC` joined
on the threads index. -/
def tpccSpeedupPoints (df : List Row) : List (Nat × Option Rat) :=
  seriesDiv
    (colPoints (engineRows df "myrocks") (·.tpmC))
    (colPoints (engineRows df "innodb") (·.tpmC))

/-- The TPC-C speedup chart drawn from those points, with the
y = 1.0 reference line. -/
def tpccSpeedupChart (df : List Row) : Chart :=
  { name := "tpcc_speedup.png",
    panels := [⟨"TPC-C Speedup: MyRocks vs InnoDB",
      [ { label := "Speedup (MyRocks / InnoDB)",
          points := tpccSpeedupPoints df } ]⟩],
    hline := some 1 }

/-- `plot_tpcc`: the TpmC comparison chart for the fixed engines
`innodb` and `myrocks`, then the speedup chart. -/
def plot_tpcc (df : List Row) : List Chart :=
  [ { name := "tpcc_tpmC.png",
      panels := [⟨"TPC-C Performance Comparison",
        ["innodb", "myrocks"].map (fun e =>
          { label := e.toUpper, points := colPoints (engineRows df e) (·.tpmC) })⟩],
      hline := none },
    tpccSpeedupChart df ]

/-! ### plot_sysbench_tpcc -/

/-- The fixed label-beautification mapping (`engine_map` in the
source). -/
def engine_map (e : String) : Option String :=
  match e with
  | "vanilla-innodb" => some "Vanilla InnoDB"
  | "percona-innodb" => some "Percona InnoDB"
  | "percona-myrocks" => some "Percona MyRocks"
  | "innodb" => some "InnoDB"
  | "myrocks" => some "MyRocks"
  | _ => none

/-- `engine_map.get(engine, engine.upper())`: beautified legend
label of an engine; unknown labels are upper-cased. -/
def beautify (e : String) : String :=
  (engine_map e).getD e.toUpper

/-- One of the three sysbench-tpcc comparison charts: a line per
distinct engine value of the table in first-appearance order,
legend-labelled through `beautify`. -/
def tpccComparisonChart (df : List Row) (nm title : String) (metric : Row → Rat) : Chart :=
  { name := nm,
    panels := [⟨title,
      (uniquesFirst (df.map (·.engine))).map (fun e =>
        { label := beautify e, points := colPoints (engineRows df e) metric })⟩],
    hline := none }

/-- The loop over `unique_engines` that identifies the innodb and
myrocks engines: the last engine containing the substring `innodb`
is kept as innodb; otherwise the last containing `myrocks` is kept
as myrocks (an `elif`, so a label containing both counts only as
innodb). -/
def pickStep (acc : Option String × Option String) (e : String) :
    Option String × Option String :=
  if strContains e "innodb" then (some e, acc.2)
  else if strContains e "myrocks" then (acc.1, some e)
  else acc

/-- The identification loop run over all distinct engines, starting
from `(None, None)`. -/
def pickEngines (engines : List String) : Option String × Option String :=
  engines.foldl pickStep (none, none)

/-- The sysbench-tpcc combined speedup chart for the identified pair
of engines `ie` (innodb) and `me` (myrocks): TpmC-ratio and
TPS-ratio series, each `me`-value / `ie`-value joined on threads,
with the y = 1.0 reference line. -/
def sysbenchTpccSpeedupChart (df : List Row) (ie me : String) : Chart :=
  { name := "speedup_comparison.png",
    panels := [⟨"Sysbench-TPCC Speedup: MyRocks vs InnoDB",
      [ { label := "TpmC Speedup",
          points := seriesDiv
            (colPoints (engineRows df me) (·.tpmC))
            (colPoints (engineRows df ie) (·.tpmC)) },
        { label := "TPS Speedup",
          points := seriesDiv
            (colPoints (engineRows df me) (·.tps))
            (colPoints (engineRows df ie) (·.tps)) } ]⟩],
    hline := some 1 }

/-- The three sysbench-tpcc comparison charts, always produced. -/
def sysbenchTpccBase (df : List Row) : List Chart :=
  [ tpccComparisonChart df "tpmC_comparison.png" "Sysbench-TPCC TpmC Comparison" (·.tpmC),
    tpccComparisonChart df "tps_comparison.png" "Sysbench-TPCC TPS Comparison" (·.tps),
    tpccComparisonChart df "latency_comparison.png" "Sysbench-TPCC Latency Comparison" (·.latency_avg) ]

/-- The guarded tail of `plot_sysbench_tpcc`: the speedup chart is
emitted only when exactly two distinct engine values are present and
the identification loop found both an innodb and a myrocks engine;
otherwise nothing is emitted (and no error is raised). -/
def sysbenchTpccSpeedupCharts (df : List Row) : List Chart :=
  if (uniquesFirst (df.map (·.engine))).length = 2 then
    match pickEngines (uniquesFirst (df.map (·.engine))) with
    | (some ie, some me) => [sysbenchTpccSpeedupChart df ie me]
    | _ => []
  else []

/-- `plot_sysbench_tpcc`: the three comparison charts over every
distinct engine, then — only when exactly two distinct engine values
are present and the identification loop finds both an innodb and a
myrocks engine — the combined speedup chart. -/
def plot_sysbench_tpcc (df : List Row) : List Chart :=
  sysbenchTpccBase df ++ sysbenchTpccSpeedupCharts df

/-! ### main -/

/-- The benchmark-kind selector (the required positional CLI
argument, one of three fixed choices). -/
inductive Bench
  | sysbench
  | tpcc
  | sysbenchTpcc
deriving Repr, DecidableEq

/-- Observable outcome of one process invocation: exit status, lines
written to standard error, whether the output directory was created,
and the charts written. -/
structure ProcResult where
  exitCode : Nat
  stderrLines : List String
  dirCreated : Bool
  charts : List Chart
deriving Repr, DecidableEq

/-- `main`: if the csv file does not exist, print the error to
stderr and exit 1 before creating the output directory or any chart;
otherwise create the output directory and dispatch on the benchmark
kind.  `fileGood` is whether `Path(csv_file).exists()`; `df` is the
table `pd.read_csv` yields for an existing file. -/
def main (bench : Bench) (csvFile : String) (fileGood : Bool) (df : List Row) : ProcResult :=
  if !fileGood then
    { exitCode := 1,
      stderrLines := ["Error: CSV file not found: " ++ csvFile],
      dirCreated := false,
      charts := [] }
  else
    { exitCode := 0,
      stderrLines := [],
      dirCreated := true,
      charts :=
        match bench with
        | .sysbench => plot_sysbench df
        | .tpcc => plot_tpcc df
        | .sysbenchTpcc => plot_sysbench_tpcc df }

/-! ### Derived observations used by the statements -/

/-- Whether a sysbench-tpcc run emits the combined speedup chart. -/
def speedupProduced (df : List Row) : Bool :=
  (plot_sysbench_tpcc df).any (fun c => c.name == "speedup_comparison.png")

/-- The spec's wording "the labels uniquely identify one innodb and
one myrocks engine by substring": exactly one label contains the
substring `innodb` and exactly one contains `myrocks`.  This
definition follows the spec's words, for comparison with what the
code checks. -/
def specUniquelyIdentified (es : List String) : Bool :=
  (es.countP (fun e => strContains e "innodb") == 1) &&
    (es.countP (fun e => strContains e "myrocks") == 1)

/-- The spec's stated condition for producing the sysbench-tpcc
speedup chart: exactly two distinct engine values are present, and
exactly one contains the substring `innodb` and exactly one contains
`myrocks` (case-sensitive substring match on the raw engine string).
This definition follows the spec's words, for comparison with the
condition the code actually checks. -/
def specSpeedupCond (df : List Row) : Bool :=
  let es := uniquesFirst (df.map (·.engine))
  (es.length == 2) && specUniquelyIdentified es

/-- The condition the code actually checks before emitting the
sysbench-tpcc speedup chart (see `sysbenchTpccSpeedupCharts`):
exactly two distinct engines, some engine contains `innodb`, and
some engine contains `myrocks` without containing `innodb`. -/
def codeSpeedupCond (df : List Row) : Bool :=
  let es := uniquesFirst (df.map (·.engine))
  (es.length == 2) &&
    es.any (fun e => strContains e "innodb") &&
    es.any (fun e => !strContains e "innodb" && strContains e "myrocks")

/-! ### Concrete tables used to exercise the claims -/

/-- Convenience constructor for an observation row. -/
def mkRow (w e : String) (t : Nat) (tps lat tpm : Rat) : Row :=
  ⟨w, e, t, tps, lat, tpm⟩

/-- Two engines; the first label contains both `innodb` and
`myrocks`, the second contains neither. -/
def tblInnMyrPlain : List Row :=
  [mkRow "" "innodb-myrocks" 1 10 5 100, mkRow "" "plain" 1 12 6 120]

/-- Two engines; the first label contains both substrings, the
second contains `myrocks`. -/
def tblDoubleMyr : List Row :=
  [mkRow "" "innodb-myrocks" 1 10 5 100, mkRow "" "foo-myrocks" 1 12 6 120]

/-- The ordinary sysbench-tpcc pair of vendor-flavoured engines. -/
def tblVanPer : List Row :=
  [mkRow "" "vanilla-innodb" 1 10 5 100, mkRow "" "percona-myrocks" 1 12 6 120]

/-- The plain fixed engine pair. -/
def tblFixedPair : List Row :=
  [mkRow "" "innodb" 1 10 5 100, mkRow "" "myrocks" 1 12 6 120]

/-- Three distinct engine labels. -/
def tblThreeEngines : List Row :=
  [mkRow "" "vanilla-innodb" 1 10 5 100, mkRow "" "percona-innodb" 1 11 6 110,
   mkRow "" "percona-myrocks" 1 12 7 120]

/-- A tpcc table with both engines over the same two thread
levels. -/
def tblTpccPair : List Row :=
  [mkRow "" "innodb" 1 10 5 100, mkRow "" "innodb" 2 20 6 180,
   mkRow "" "myrocks" 1 12 7 120, mkRow "" "myrocks" 2 22 8 200]

/-- A sysbench table with the two workloads `A` and `B` and both
engines. -/
def tblTwoWorkloads : List Row :=
  [mkRow "A" "innodb" 1 10 5 0, mkRow "A" "myrocks" 1 11 6 0,
   mkRow "B" "innodb" 1 12 7 0, mkRow "B" "myrocks" 1 13 8 0]

/-- A table holding rows for only the innodb engine: grouping by
the other engine yields an empty group. -/
def tblInnOnly : List Row :=
  [mkRow "w" "innodb" 1 10 5 100]

/-- A one-workload sysbench table. -/
def tblOneWorkload : List Row :=
  [mkRow "oltp" "innodb" 1 10 5 100]

/-- A row whose engine is neither `innodb` nor `myrocks` and whose
workload is new. -/
def rowForeign : Row := mkRow "zzz" "foo" 1 7 3 50

/-- A row whose engine is neither `innodb` nor `myrocks` but whose
workload already occurs in `tblOneWorkload`. -/
def rowForeignSame : Row := mkRow "oltp" "foo" 2 8 4 60

/-! ### Helper lemmas -/

lemma leadMatch_refl (l : List Char) : leadMatch l l = true := by
  induction l with
  | nil => rfl
  | cons c cs ih => simp [leadMatch, ih]

lemma charsHasSub_append_self (pre pat : List Char) :
    charsHasSub pat (pre ++ pat) = true := by
  induction pre with
  | nil =>
    cases pat with
    | nil => rfl
    | cons c cs => simp [charsHasSub, leadMatch_refl]
  | cons c cs ih => simp [charsHasSub, ih]

lemma strContains_append_self (s p : String) :
    strContains (s ++ p) p = true := by
  unfold strContains
  rw [show (s ++ p).toList = s.toList ++ p.toList from rfl]
  exact charsHasSub_append_self _ _

lemma mem_foldl_dedupStep {α : Type} [DecidableEq α] (l : List α) (acc : List α) (x : α) :
    x ∈ l.foldl dedupStep acc ↔ (x ∈ acc ∨ x ∈ l) := by
  induction l generalizing acc with
  | nil => simp
  | cons y ys ih =>
    rw [List.foldl_cons, ih]
    unfold dedupStep
    by_cases hy : y ∈ acc
    · simp only [if_pos hy, List.mem_cons]
      constructor
      · rintro (h | h)
        · exact Or.inl h
        · exact Or.inr (Or.inr h)
      · rintro (h | h | h)
        · exact Or.inl h
        · exact Or.inl (h ▸ hy)
        · exact Or.inr h
    · simp only [if_neg hy, List.mem_append, List.mem_singleton, List.mem_cons]
      tauto

lemma mem_uniquesFirst {α : Type} [DecidableEq α] (l : List α) (x : α) :
    x ∈ uniquesFirst l ↔ x ∈ l := by
  unfold uniquesFirst
  rw [mem_foldl_dedupStep]
  simp

lemma uniquesFirst_append_of_mem {α : Type} [DecidableEq α] {l : List α} {w : α}
    (h : w ∈ l) : uniquesFirst (l ++ [w]) = uniquesFirst l := by
  unfold uniquesFirst
  rw [List.foldl_append]
  show dedupStep (uniquesFirst l) w = uniquesFirst l
  unfold dedupStep
  rw [if_pos ((mem_uniquesFirst l w).mpr h)]

lemma mem_insSorted (x y : Nat) (l : List Nat) :
    x ∈ insSorted y l ↔ (x = y ∨ x ∈ l) := by
  induction l with
  | nil => simp [insSorted]
  | cons z zs ih =>
    unfold insSorted
    by_cases h : y ≤ z
    · simp [if_pos h]
    · simp only [if_neg h, List.mem_cons, ih]
      tauto

lemma mem_sortNat (l : List Nat) (x : Nat) : x ∈ sortNat l ↔ x ∈ l := by
  induction l with
  | nil => simp [sortNat]
  | cons y ys ih =>
    show x ∈ insSorted y (sortNat ys) ↔ _
    rw [mem_insSorted]
    simp [ih]

lemma mem_unionIdx_left {t : Nat} {a b : List Nat} (h : t ∈ a) :
    t ∈ unionIdx a b := by
  unfold unionIdx
  split
  · exact h
  · exact (mem_sortNat _ _).mpr ((mem_uniquesFirst _ _).mpr (List.mem_append_left _ h))

lemma mem_unionIdx_elim {t : Nat} {a b : List Nat} (h : t ∈ unionIdx a b) :
    t ∈ a ∨ t ∈ b := by
  unfold unionIdx at h
  split at h
  · exact Or.inl h
  · exact List.mem_append.mp ((mem_uniquesFirst _ _).mp ((mem_sortNat _ _).mp h))

lemma find?_key_mem {l : List (Nat × Option Rat)} {t : Nat}
    (h : t ∈ l.map (·.1)) :
    ∃ v, l.find? (fun p => p.1 == t) = some (t, v) ∧ (t, v) ∈ l := by
  induction l with
  | nil => simp at h
  | cons p ps ih =>
    obtain ⟨pt, pv⟩ := p
    by_cases hp : pt = t
    · subst hp
      refine ⟨pv, ?_, List.mem_cons_self _ _⟩
      rw [List.find?_cons_of_pos]
      simp
    · have hne : ((pt, pv).1 == t) = false := by simp [hp]
      rw [List.map_cons, List.mem_cons] at h
      rcases h with h | h
      · exact absurd h.symm hp
      · obtain ⟨v, hf, hm⟩ := ih h
        exact ⟨v, by rw [List.find?_cons_of_neg _ (by simp [hne]), hf],
               List.mem_cons_of_mem _ hm⟩

lemma colPoints_fst_map (rows : List Row) (m : Row → Rat) :
    (colPoints rows m).map (·.1) = rows.map (·.threads) := by
  simp [colPoints, List.map_map, Function.comp]

lemma colPoints_mem {rows : List Row} {m : Row → Rat} {p : Nat × Option Rat}
    (h : p ∈ colPoints rows m) : ∃ r ∈ rows, p = (r.threads, some (m r)) := by
  obtain ⟨r, hr, rfl⟩ := List.mem_map.mp h
  exact ⟨r, hr, rfl⟩

lemma seriesDiv_mem {num den : List (Nat × Option Rat)} {t : Nat} {x y : Rat}
    (hn : num.find? (fun p => p.1 == t) = some (t, some x))
    (hd : den.find? (fun p => p.1 == t) = some (t, some y)) :
    (t, some (x / y)) ∈ seriesDiv num den := by
  have htn : t ∈ num.map (·.1) :=
    List.mem_map.mpr ⟨(t, some x), List.mem_of_find?_eq_some hn, rfl⟩
  unfold seriesDiv
  refine List.mem_map.mpr ⟨t, mem_unionIdx_left htn, ?_⟩
  rw [hn, hd]

lemma seriesDiv_elim {num den : List (Nat × Option Rat)} {pt : Nat × Option Rat}
    (h : pt ∈ seriesDiv num den) :
    ∃ t, (t ∈ num.map (·.1) ∨ t ∈ den.map (·.1)) ∧
      pt = (match num.find? (fun p => p.1 == t), den.find? (fun p => p.1 == t) with
            | some (_, some x), some (_, some y) => (t, some (x / y))
            | _, _ => (t, none)) := by
  unfold seriesDiv at h
  obtain ⟨t, ht, rfl⟩ := List.mem_map.mp h
  exact ⟨t, mem_unionIdx_elim ht, rfl⟩

lemma pickEngines_fst_aux (l : List String) (acc : Option String × Option String) :
    (l.foldl pickStep acc).1.isSome =
      (acc.1.isSome || l.any (fun e => strContains e "innodb")) := by
  induction l generalizing acc with
  | nil => simp
  | cons e es ih =>
    rw [List.foldl_cons, ih, List.any_cons]
    unfold pickStep
    by_cases h1 : strContains e "innodb"
    · simp [h1]
    · by_cases h2 : strContains e "myrocks" <;> simp [h1, h2]

lemma pickEngines_snd_aux (l : List String) (acc : Option String × Option String) :
    (l.foldl pickStep acc).2.isSome =
      (acc.2.isSome || l.any (fun e => !strContains e "innodb" && strContains e "myrocks")) := by
  induction l generalizing acc with
  | nil => simp
  | cons e es ih =>
    rw [List.foldl_cons, ih, List.any_cons]
    unfold pickStep
    by_cases h1 : strContains e "innodb"
    · simp [h1]
    · by_cases h2 : strContains e "myrocks" <;> simp [h1, h2]

lemma pickEngines_fst_isSome (es : List String) :
    (pickEngines es).1.isSome = es.any (fun e => strContains e "innodb") := by
  unfold pickEngines
  rw [pickEngines_fst_aux]
  rfl

lemma pickEngines_snd_isSome (es : List String) :
    (pickEngines es).2.isSome =
      es.any (fun e => !strContains e "innodb" && strContains e "myrocks") := by
  unfold pickEngines
  rw [pickEngines_snd_aux]
  rfl

lemma sysbenchTpccBase_no_speedup (df : List Row) :
    (sysbenchTpccBase df).any (fun c => c.name == "speedup_comparison.png") = false := rfl

lemma mem_speedupCharts_name {df : List Row} {c : Chart}
    (h : c ∈ sysbenchTpccSpeedupCharts df) : c.name = "speedup_comparison.png" := by
  unfold sysbenchTpccSpeedupCharts at h
  split at h
  · split at h
    · rw [List.mem_singleton] at h
      subst h
      rfl
    · simp at h
  · simp at h

lemma speedupProduced_eq (df : List Row) :
    speedupProduced df = !(sysbenchTpccSpeedupCharts df).isEmpty := by
  unfold speedupProduced plot_sysbench_tpcc
  rw [List.any_append, sysbenchTpccBase_no_speedup, Bool.false_or]
  unfold sysbenchTpccSpeedupCharts
  split
  · split
    · rfl
    · rfl
  · rfl

lemma speedupCharts_empty_iff (df : List Row) :
    sysbenchTpccSpeedupCharts df = [] ↔
      ¬ ((uniquesFirst (df.map (·.engine))).length = 2 ∧
         (pickEngines (uniquesFirst (df.map (·.engine)))).1.isSome = true ∧
         (pickEngines (uniquesFirst (df.map (·.engine)))).2.isSome = true) := by
  unfold sysbenchTpccSpeedupCharts
  split
  · rename_i hlen
    split
    · rename_i ie me heq
      refine iff_of_false (List.cons_ne_nil _ _) (not_not_intro ⟨hlen, ?_, ?_⟩)
      · rw [heq]
        rfl
      · rw [heq]
        rfl
    · rename_i hne
      simp only [true_iff]
      rintro ⟨-, h1, h2⟩
      rcases hp : pickEngines (uniquesFirst (df.map (·.engine))) with ⟨i, m⟩
      rw [hp] at h1 h2
      cases i with
      | none => simp at h1
      | some ie =>
        cases m with
        | none => simp at h2
        | some me => exact hne ie me hp
  · rename_i hlen
    simp only [true_iff]
    rintro ⟨h, -⟩
    exact hlen h

lemma speedupProduced_iff (df : List Row) :
    speedupProduced df = true ↔
      ((uniquesFirst (df.map (·.engine))).length = 2 ∧
       (uniquesFirst (df.map (·.engine))).any (fun e => strContains e "innodb") = true ∧
       (uniquesFirst (df.map (·.engine))).any
         (fun e => !strContains e "innodb" && strContains e "myrocks") = true) := by
  rw [speedupProduced_eq, ← pickEngines_fst_isSome, ← pickEngines_snd_isSome]
  rw [Bool.not_eq_true']
  rw [show ((sysbenchTpccSpeedupCharts df).isEmpty = false) ↔
        ¬ (sysbenchTpccSpeedupCharts df) = [] by
      rw [← Bool.not_eq_true, List.isEmpty_iff]]
  rw [speedupCharts_empty_iff]
  tauto

lemma codeSpeedupCond_iff (df : List Row) :
    codeSpeedupCond df = true ↔
      ((uniquesFirst (df.map (·.engine))).length = 2 ∧
       (uniquesFirst (df.map (·.engine))).any (fun e => strContains e "innodb") = true ∧
       (uniquesFirst (df.map (·.engine))).any
         (fun e => !strContains e "innodb" && strContains e "myrocks") = true) := by
  unfold codeSpeedupCond
  simp [Bool.and_eq_true, and_assoc]

lemma plot_sysbench_eq (df : List Row) :
    plot_sysbench df =
      ((uniquesFirst (df.map (·.workload))).flatMap (sysbenchWorkloadCharts df)) ++
        [sysbenchSummaryChart df (uniquesFirst (df.map (·.workload)))] := rfl

lemma seriesDiv_nil_num {den : List (Nat × Option Rat)} {pt : Nat × Option Rat}
    (h : pt ∈ seriesDiv [] den) : pt.2 = none := by
  unfold seriesDiv at h
  obtain ⟨t, -, rfl⟩ := List.mem_map.mp h
  rw [List.find?_nil]

lemma engineRows_append (df l : List Row) (e : String) :
    engineRows (df ++ l) e = engineRows df e ++ engineRows l e :=
  List.filter_append _ _

lemma engineRows_singleton_ne {r : Row} {e : String} (h : r.engine ≠ e) :
    engineRows [r] e = [] := by
  simp [engineRows, List.filter_cons, h]

lemma engineRows_workloadRows_foreign {r : Row} (w e : String) (h : r.engine ≠ e)
    (df : List Row) :
    engineRows (workloadRows (df ++ [r]) w) e = engineRows (workloadRows df w) e := by
  unfold workloadRows
  rw [List.filter_append, engineRows_append]
  suffices hs : engineRows (List.filter (fun x => x.workload == w) [r]) e = [] by
    rw [hs, List.append_nil]
  by_cases hw : r.workload = w
  · rw [show List.filter (fun x => x.workload == w) [r] = [r] by
        simp [List.filter_cons, hw]]
    exact engineRows_singleton_ne h
  · rw [show List.filter (fun x => x.workload == w) [r] = [] by
        simp [List.filter_cons, hw]]
    rfl

lemma sysbenchSeries_foreign {r : Row} (h1 : r.engine ≠ "innodb")
    (h2 : r.engine ≠ "myrocks") (df : List Row) (w : String) (m : Row → Rat) :
    sysbenchSeries (workloadRows (df ++ [r]) w) m =
      sysbenchSeries (workloadRows df w) m := by
  simp only [sysbenchSeries, List.map_cons, List.map_nil]
  rw [engineRows_workloadRows_foreign w "innodb" h1 df,
      engineRows_workloadRows_foreign w "myrocks" h2 df]

lemma sysbenchWorkloadCharts_foreign {r : Row} (h1 : r.engine ≠ "innodb")
    (h2 : r.engine ≠ "myrocks") (df : List Row) :
    sysbenchWorkloadCharts (df ++ [r]) = sysbenchWorkloadCharts df := by
  funext w
  unfold sysbenchWorkloadCharts
  rw [sysbenchSeries_foreign h1 h2 df w, sysbenchSeries_foreign h1 h2 df w]

lemma sysbenchSummaryChart_foreign {r : Row} (h1 : r.engine ≠ "innodb")
    (h2 : r.engine ≠ "myrocks") (df : List Row) (W : List String) :
    sysbenchSummaryChart (df ++ [r]) W = sysbenchSummaryChart df W := by
  unfold sysbenchSummaryChart
  rw [show (fun w => (⟨w, sysbenchSeries (workloadRows (df ++ [r]) w) (·.tps)⟩ : Panel)) =
        (fun w => (⟨w, sysbenchSeries (workloadRows df w) (·.tps)⟩ : Panel)) from
      funext (fun w => by rw [sysbenchSeries_foreign h1 h2 df w])]

/-! ### Claim theorems -/

/-- C3: for every invocation with a csv_file path that does not
exist, the process writes an error message containing that path to
standard error and exits with status 1, before any processing and
before writing any output file or creating the output directory. -/
theorem missing_input_file (b : Bench) (p : String) (df : List Row) :
    (main b p false df).exitCode = 1 ∧
    (main b p false df).stderrLines = ["Error: CSV file not found: " ++ p] ∧
    strContains ("Error: CSV file not found: " ++ p) p = true ∧
    (main b p false df).dirCreated = false ∧
    (main b p false df).charts = [] :=
  ⟨rfl, rfl, strContains_append_self _ _, rfl, rfl⟩

/-- C4: for benchmark kind sysbench, a table with exactly two
distinct workload values A and B yields exactly the 5 image files
`A_tps.png`, `A_latency.png`, `B_tps.png`, `B_latency.png`,
`summary_comparison.png`, and no others. -/
theorem sysbench_output_files (df : List Row) (A B : String)
    (h : uniquesFirst (df.map (·.workload)) = [A, B]) :
    (plot_sysbench df).map (·.name) =
      [A ++ "_tps.png", A ++ "_latency.png",
       B ++ "_tps.png", B ++ "_latency.png", "summary_comparison.png"] := by
  rw [plot_sysbench_eq, h]
  simp [sysbenchWorkloadCharts, sysbenchSummaryChart]

/-- Witness for C4 at a concrete two-workload table. -/
theorem sysbench_output_files_w :
    uniquesFirst (tblTwoWorkloads.map (·.workload)) = ["A", "B"] ∧
    (plot_sysbench tblTwoWorkloads).map (·.name) =
      ["A" ++ "_tps.png", "A" ++ "_latency.png",
       "B" ++ "_tps.png", "B" ++ "_latency.png", "summary_comparison.png"] :=
  ⟨by decide, sysbench_output_files tblTwoWorkloads "A" "B" (by decide)⟩

/-- C6 counterexample: a well-formed tpcc table whose myrocks group
is empty does not abort the process — the run completes with exit
status 0 and still writes both tpcc charts, contradicting the claim
that empty groups surface as an uncaught runtime error with
non-zero exit status. -/
theorem empty_group_abort_cex :
    engineRows tblInnOnly "myrocks" = [] ∧
    (main Bench.tpcc "results.csv" true tblInnOnly).exitCode = 0 ∧
    (main Bench.tpcc "results.csv" true tblInnOnly).charts.length = 2 :=
  ⟨rfl, rfl, rfl⟩

/-- C6 (amended): an empty engine group is tolerated, not an error:
a tpcc run over a table with no myrocks rows completes with exit
status 0, and every point of the speedup series is NaN (the aligned
division of an empty series by the innodb series). -/
theorem empty_group_tolerated (df : List Row) (p : String)
    (h : engineRows df "myrocks" = []) :
    (main Bench.tpcc p true df).exitCode = 0 ∧
    ∀ pt ∈ tpccSpeedupPoints df, pt.2 = none := by
  refine ⟨rfl, ?_⟩
  intro pt hpt
  unfold tpccSpeedupPoints at hpt
  rw [h] at hpt
  exact seriesDiv_nil_num hpt

/-- Witness for C6 (amended) at the innodb-only table. -/
theorem empty_group_tolerated_w :
    (main Bench.tpcc "results.csv" true tblInnOnly).exitCode = 0 ∧
    (tpccSpeedupPoints tblInnOnly).all (fun pt => pt.2 == none) = true := by
  have h := empty_group_tolerated tblInnOnly "results.csv" rfl
  refine ⟨h.1, List.all_eq_true.mpr (fun pt hpt => ?_)⟩
  rw [h.2 pt hpt]
  rfl

/-- C7: the sysbench summary figure has one TPS panel per workload
for the first three distinct workload values in first-seen order
(later workloads are omitted), each panel holding the two fixed
engine series. -/
theorem sysbench_summary_panels (df : List Row) :
    ∃ c ∈ plot_sysbench df, c.name = "summary_comparison.png" ∧
      c.panels.map (·.title) = (uniquesFirst (df.map (·.workload))).take 3 ∧
      ∀ p ∈ c.panels, p.series = sysbenchSeries (workloadRows df p.title) (·.tps) := by
  refine ⟨sysbenchSummaryChart df (uniquesFirst (df.map (·.workload))), ?_, rfl, ?_, ?_⟩
  · rw [plot_sysbench_eq]
    exact List.mem_append_right _ (List.mem_singleton.mpr rfl)
  · simp [sysbenchSummaryChart, List.map_map, Function.comp_def]
  · intro p hp
    obtain ⟨w, -, rfl⟩ := List.mem_map.mp hp
    rfl

/-- C9: the output is a deterministic function of the table and the
benchmark-kind selector — two successful runs over the same table
yield identical charts (and in particular identical file names),
whatever the csv path argument was. -/
theorem deterministic_charts (b : Bench) (p1 p2 : String) (df : List Row) :
    (main b p1 true df).charts = (main b p2 true df).charts ∧
    (main b p1 true df).exitCode = (main b p2 true df).exitCode ∧
    ((main b p1 true df).charts).map (·.name) = ((main b p2 true df).charts).map (·.name) :=
  ⟨rfl, rfl, rfl⟩

/-- C10 counterexample: appending a row whose engine is neither
`innodb` nor `myrocks` (here with a fresh workload value) changes
the sysbench output — two extra per-workload charts appear — so
such rows are not without effect on the charts. -/
theorem foreign_engine_rows_cex :
    rowForeign.engine ≠ "innodb" ∧ rowForeign.engine ≠ "myrocks" ∧
    plot_sysbench (tblOneWorkload ++ [rowForeign]) ≠ plot_sysbench tblOneWorkload := by
  refine ⟨by decide, by decide, fun h => ?_⟩
  have h5 : (plot_sysbench (tblOneWorkload ++ [rowForeign])).length = 5 := rfl
  have h3 : (plot_sysbench tblOneWorkload).length = 3 := rfl
  rw [h, h3] at h5
  exact absurd h5 (by decide)

/-- C10 (amended): a row whose engine is neither `innodb` nor
`myrocks` contributes no data points to any series: for tpcc it
leaves the output completely unchanged, and for sysbench it leaves
the output unchanged whenever its workload value already occurs in
the table (otherwise it only adds per-workload charts whose two
engine series it still does not enter). -/
theorem foreign_engine_rows_inert (df : List Row) (r : Row)
    (h1 : r.engine ≠ "innodb") (h2 : r.engine ≠ "myrocks") :
    plot_tpcc (df ++ [r]) = plot_tpcc df ∧
    (r.workload ∈ df.map (·.workload) →
      plot_sysbench (df ++ [r]) = plot_sysbench df) := by
  constructor
  · have e1 : engineRows (df ++ [r]) "innodb" = engineRows df "innodb" := by
      rw [engineRows_append, engineRows_singleton_ne h1, List.append_nil]
    have e2 : engineRows (df ++ [r]) "myrocks" = engineRows df "myrocks" := by
      rw [engineRows_append, engineRows_singleton_ne h2, List.append_nil]
    unfold plot_tpcc tpccSpeedupChart tpccSpeedupPoints
    simp only [List.map_cons, List.map_nil]
    rw [e1, e2]
  · intro hw
    have hwl : uniquesFirst ((df ++ [r]).map (·.workload)) =
        uniquesFirst (df.map (·.workload)) := by
      rw [List.map_append, List.map_singleton]
      exact uniquesFirst_append_of_mem hw
    rw [plot_sysbench_eq, plot_sysbench_eq, hwl,
        sysbenchWorkloadCharts_foreign h1 h2 df,
        sysbenchSummaryChart_foreign h1 h2 df]

/-- Witness for C10 (amended): a foreign-engine row with an
already-present workload leaves both outputs unchanged. -/
theorem foreign_engine_rows_inert_w :
    plot_tpcc (tblOneWorkload ++ [rowForeignSame]) = plot_tpcc tblOneWorkload ∧
    plot_sysbench (tblOneWorkload ++ [rowForeignSame]) = plot_sysbench tblOneWorkload := by
  have h := foreign_engine_rows_inert tblOneWorkload rowForeignSame (by decide) (by decide)
  exact ⟨h.1, h.2 (by decide)⟩

/-- C1 counterexample: for the engine pair `innodb-myrocks` /
`plain`, exactly one label contains `innodb` and exactly one
contains `myrocks` (the same label), so the spec's condition holds,
yet no speedup chart is produced: the identification loop's `elif`
never assigns a myrocks engine.  The claimed equivalence is
false. -/
theorem sysbench_tpcc_speedup_iff_cex :
    ¬ (speedupProduced tblInnMyrPlain = true ↔ specSpeedupCond tblInnMyrPlain = true) := by
  decide

/-- C1 (amended): the sysbench-tpcc speedup chart is produced iff
exactly two distinct engine values are present, some label contains
the substring `innodb`, and some label contains `myrocks` without
containing `innodb`; when the identification loop finds the pair
`(ie, me)`, the combined chart is produced with the TpmC-ratio and
TPS-ratio series — each the myrocks engine's value divided by the
innodb engine's value joined by matching threads — plus the y = 1.0
reference line. -/
theorem sysbench_tpcc_speedup_iff_engines (df : List Row) :
    (speedupProduced df = true ↔ codeSpeedupCond df = true) ∧
    (∀ ie me, (uniquesFirst (df.map (·.engine))).length = 2 →
      pickEngines (uniquesFirst (df.map (·.engine))) = (some ie, some me) →
      sysbenchTpccSpeedupChart df ie me ∈ plot_sysbench_tpcc df ∧
      (sysbenchTpccSpeedupChart df ie me).hline = some 1 ∧
      (∀ t x y,
        (colPoints (engineRows df me) (·.tpmC)).find? (fun p => p.1 == t) = some (t, some x) →
        (colPoints (engineRows df ie) (·.tpmC)).find? (fun p => p.1 == t) = some (t, some y) →
        ∃ pa ∈ (sysbenchTpccSpeedupChart df ie me).panels, ∃ s ∈ pa.series,
          s.label = "TpmC Speedup" ∧ (t, some (x / y)) ∈ s.points) ∧
      (∀ t x y,
        (colPoints (engineRows df me) (·.tps)).find? (fun p => p.1 == t) = some (t, some x) →
        (colPoints (engineRows df ie) (·.tps)).find? (fun p => p.1 == t) = some (t, some y) →
        ∃ pa ∈ (sysbenchTpccSpeedupChart df ie me).panels, ∃ s ∈ pa.series,
          s.label = "TPS Speedup" ∧ (t, some (x / y)) ∈ s.points)) := by
  constructor
  · rw [speedupProduced_iff, codeSpeedupCond_iff]
  · intro ie me hlen hpick
    have hmem : sysbenchTpccSpeedupChart df ie me ∈ plot_sysbench_tpcc df := by
      unfold plot_sysbench_tpcc
      refine List.mem_append_right _ ?_
      unfold sysbenchTpccSpeedupCharts
      rw [if_pos hlen, hpick]
      exact List.mem_singleton.mpr rfl
    refine ⟨hmem, rfl, ?_, ?_⟩
    · intro t x y hf hd
      refine ⟨_, List.mem_singleton.mpr rfl, _, List.mem_cons_self _ _, rfl, ?_⟩
      exact seriesDiv_mem hf hd
    · intro t x y hf hd
      refine ⟨_, List.mem_singleton.mpr rfl, _,
        List.mem_cons_of_mem _ (List.mem_cons_self _ _), rfl, ?_⟩
      exact seriesDiv_mem hf hd

/-- Witness for C1 (amended) at the vendor-flavoured engine pair. -/
theorem sysbench_tpcc_speedup_iff_engines_w :
    speedupProduced tblVanPer = true ∧
    sysbenchTpccSpeedupChart tblVanPer "vanilla-innodb" "percona-myrocks" ∈
      plot_sysbench_tpcc tblVanPer := by
  have h := sysbench_tpcc_speedup_iff_engines tblVanPer
  exact ⟨h.1.mpr (by decide),
         (h.2 "vanilla-innodb" "percona-myrocks" (by decide) (by decide)).1⟩

/-- C2: for a tpcc table whose innodb and myrocks groups carry the
same set of threads values, the speedup chart is present with the
y = 1.0 reference line, every point of its series at a shared
threads value equals the myrocks row's tpmC divided by the innodb
row's tpmC there, and every shared threads value contributes its
ratio point. -/
theorem tpcc_speedup_series (df : List Row)
    (hmi : (engineRows df "myrocks").map (·.threads) ⊆ (engineRows df "innodb").map (·.threads))
    (him : (engineRows df "innodb").map (·.threads) ⊆ (engineRows df "myrocks").map (·.threads)) :
    tpccSpeedupChart df ∈ plot_tpcc df ∧
    (tpccSpeedupChart df).hline = some 1 ∧
    (∀ pt ∈ tpccSpeedupPoints df, ∃ x y,
      (colPoints (engineRows df "myrocks") (·.tpmC)).find? (fun p => p.1 == pt.1) =
        some (pt.1, some x) ∧
      (colPoints (engineRows df "innodb") (·.tpmC)).find? (fun p => p.1 == pt.1) =
        some (pt.1, some y) ∧
      pt.2 = some (x / y)) ∧
    (∀ t x y,
      (colPoints (engineRows df "myrocks") (·.tpmC)).find? (fun p => p.1 == t) = some (t, some x) →
      (colPoints (engineRows df "innodb") (·.tpmC)).find? (fun p => p.1 == t) = some (t, some y) →
      (t, some (x / y)) ∈ tpccSpeedupPoints df) := by
  refine ⟨by simp [plot_tpcc], rfl, ?_, ?_⟩
  · intro pt hpt
    obtain ⟨t, hor, hpteq⟩ := seriesDiv_elim hpt
    have hts : t ∈ (engineRows df "myrocks").map (·.threads) := by
      rcases hor with h | h
      · rw [colPoints_fst_map] at h
        exact h
      · rw [colPoints_fst_map] at h
        exact him h
    have hti : t ∈ (engineRows df "innodb").map (·.threads) := hmi hts
    obtain ⟨v, hfv, hmv⟩ :=
      find?_key_mem (l := colPoints (engineRows df "myrocks") (·.tpmC))
        (by rw [colPoints_fst_map]; exact hts)
    obtain ⟨u, hfu, hmu⟩ :=
      find?_key_mem (l := colPoints (engineRows df "innodb") (·.tpmC))
        (by rw [colPoints_fst_map]; exact hti)
    obtain ⟨rm, -, hrm⟩ := colPoints_mem hmv
    obtain ⟨ri, -, hri⟩ := colPoints_mem hmu
    have hv : v = some rm.tpmC := congrArg Prod.snd hrm
    have hu : u = some ri.tpmC := congrArg Prod.snd hri
    subst hv hu
    have hpt2 : pt = (t, some (rm.tpmC / ri.tpmC)) := by
      rw [hpteq, hfv, hfu]
    subst hpt2
    exact ⟨rm.tpmC, ri.tpmC, hfv, hfu, rfl⟩
  · intro t x y hf hd
    unfold tpccSpeedupPoints
    exact seriesDiv_mem hf hd

/-- Witness for C2 at a two-thread-level tpcc table. -/
theorem tpcc_speedup_series_w :
    tpccSpeedupChart tblTpccPair ∈ plot_tpcc tblTpccPair ∧
    (1, some ((120 : Rat) / 100)) ∈ tpccSpeedupPoints tblTpccPair ∧
    (2, some ((200 : Rat) / 180)) ∈ tpccSpeedupPoints tblTpccPair := by
  have h := tpcc_speedup_series tblTpccPair (by decide) (by decide)
  exact ⟨h.1, h.2.2.2 1 120 100 (by decide) (by decide),
         h.2.2.2 2 200 180 (by decide) (by decide)⟩

/-- C5 counterexample: for the engine pair `innodb-myrocks` /
`foo-myrocks`, two labels contain `myrocks`, so the innodb/myrocks
substrings are not uniquely identified — yet the speedup chart is
produced (the loop keeps the first label as innodb and the second
as myrocks), contradicting the claimed skip. -/
theorem sysbench_tpcc_speedup_skip_cex :
    ¬ ((let es := uniquesFirst (tblDoubleMyr.map (·.engine));
        es.length = 0 ∨ 2 < es.length ∨ specUniquelyIdentified es = false) →
       speedupProduced tblDoubleMyr = false) := by
  decide

/-- C5 (amended): whenever the code's condition fails — the number
of distinct engines differs from two, or no label contains
`innodb`, or no label contains `myrocks` without containing
`innodb` — the speedup chart is skipped without any error and the
output is exactly the three comparison charts enumerating every
distinct engine value. -/
theorem sysbench_tpcc_speedup_skip (df : List Row)
    (h : codeSpeedupCond df = false) :
    speedupProduced df = false ∧
    (plot_sysbench_tpcc df).map (·.name) =
      ["tpmC_comparison.png", "tps_comparison.png", "latency_comparison.png"] := by
  have hnc : ¬ ((uniquesFirst (df.map (·.engine))).length = 2 ∧
      (pickEngines (uniquesFirst (df.map (·.engine)))).1.isSome = true ∧
      (pickEngines (uniquesFirst (df.map (·.engine)))).2.isSome = true) := by
    rintro ⟨hl, h1, h2⟩
    rw [pickEngines_fst_isSome] at h1
    rw [pickEngines_snd_isSome] at h2
    have ht : codeSpeedupCond df = true := (codeSpeedupCond_iff df).mpr ⟨hl, h1, h2⟩
    rw [h] at ht
    exact Bool.false_ne_true ht
  have hempty := (speedupCharts_empty_iff df).mpr hnc
  constructor
  · rw [speedupProduced_eq, hempty]
    rfl
  · unfold plot_sysbench_tpcc
    rw [hempty, List.append_nil]
    rfl

/-- Witness for C5 (amended): with three distinct engine labels the
speedup chart is skipped and the three comparison charts remain. -/
theorem sysbench_tpcc_speedup_skip_w :
    codeSpeedupCond tblThreeEngines = false ∧
    (speedupProduced tblThreeEngines = false ∧
     (plot_sysbench_tpcc tblThreeEngines).map (·.name) =
       ["tpmC_comparison.png", "tps_comparison.png", "latency_comparison.png"]) :=
  ⟨by decide, sysbench_tpcc_speedup_skip tblThreeEngines (by decide)⟩

/-- C8 counterexample: for the fixed engine pair the speedup chart
is also produced, and that chart's series are the two ratio series,
not one per distinct engine value — so not every sysbench-tpcc
chart enumerates the engines with beautified labels. -/
theorem engine_enum_every_chart_cex :
    ¬ (∀ c ∈ plot_sysbench_tpcc tblFixedPair,
        c.panels.map (fun p => p.series.map (·.label)) =
          [(uniquesFirst (tblFixedPair.map (·.engine))).map beautify]) := by
  decide

/-- C8 (amended): every sysbench-tpcc chart except the speedup
chart draws one series per distinct engine value of the table, in
order of first appearance, legend-labelled through the fixed
beautification mapping (upper-casing unknown labels). -/
theorem comparison_charts_engine_enum (df : List Row) (c : Chart)
    (hc : c ∈ plot_sysbench_tpcc df) (hn : c.name ≠ "speedup_comparison.png") :
    c.panels.map (fun p => p.series.map (·.label)) =
      [(uniquesFirst (df.map (·.engine))).map beautify] := by
  unfold plot_sysbench_tpcc at hc
  rcases List.mem_append.mp hc with h | h
  · unfold sysbenchTpccBase at h
    simp only [List.mem_cons, List.not_mem_nil, or_false] at h
    rcases h with rfl | rfl | rfl <;>
      simp [tpccComparisonChart, List.map_map, Function.comp_def]
  · exact absurd (mem_speedupCharts_name h) hn

/-- Witness for C8 (amended) at the TpmC comparison chart of the
fixed engine pair. -/
theorem comparison_charts_engine_enum_w :
    (tpccComparisonChart tblFixedPair "tpmC_comparison.png"
        "Sysbench-TPCC TpmC Comparison" (·.tpmC)).panels.map
      (fun p => p.series.map (·.label)) =
      [(uniquesFirst (tblFixedPair.map (·.engine))).map beautify] :=
  comparison_charts_engine_enum tblFixedPair _ (by decide) (by decide)

end PlotResults
